import Mathlib

/-!
Shallow embedding of the sftp-server repository's session lifecycle manager
(`SessionService` in `internal/services`) and streaming transfer/archival
engine (`FileService`), together with the helpers they use
(`internal/models`, `pkg/utils`).  Each definition is translated directly
from the Go source; theorems below settle the specification claims.
-/

namespace Sftp

/-! ### Session registry: capacity model (SessionService.CreateSession)

CreateSession checks the session count under a read lock (part_005 lines
44-50), then dials the remote server, and finally inserts the new record
under the write lock (lines 104-107) without re-checking the count.  We
model each create call as two atomic phases: `check` (the RLock capacity
test) and `insert` (the write-lock insertion).  A call that fails the
check never reaches its insert phase; `passed` records calls that have
passed the check but not yet inserted. -/

structure CreateState where
  count : Nat
  passed : List Nat
deriving Repr, DecidableEq

inductive CreateEvent where
  | check (c : Nat)
  | insert (c : Nat)
deriving Repr, DecidableEq

/-- One scheduler step of the capacity protocol of CreateSession: the
`check` phase fails (leaves the state unchanged, the call errors out) when
`count ≥ maxSessions`, otherwise the call is allowed to proceed; the
`insert` phase unconditionally stores the session of a call that passed
its check — the Go code performs no re-check under the write lock. -/
def createStep (maxSessions : Nat) (st : CreateState) : CreateEvent → CreateState
  | .check c =>
    if st.count ≥ maxSessions then st
    else { st with passed := c :: st.passed }
  | .insert c =>
    if c ∈ st.passed then { count := st.count + 1, passed := st.passed.erase c }
    else st

/-- Run a schedule of interleaved create-call phases. -/
def runCreates (maxSessions : Nat) (events : List CreateEvent) (st : CreateState) : CreateState :=
  events.foldl (createStep maxSessions) st

/-- A sequential (non-interleaved) sequence of create calls: each call's
check is immediately followed by its insert. -/
def seqSchedule (calls : List Nat) : List CreateEvent :=
  calls.flatMap (fun c => [CreateEvent.check c, CreateEvent.insert c])

/-! ### Session registry: expiry model (SessionService.GetSession)

Session.IsExpired (models.go lines 126-128) is
`time.Since(s.LastAccess) > timeout`; GetSession (part_005 lines 113-128)
returns ErrSessionNotFound for an unknown id, ErrSessionExpired when
IsExpired, and otherwise refreshes LastAccess and returns the session.
Times are modelled as natural-number instants. -/

structure RegSession where
  id : String
  lastAccess : Nat
deriving Repr, DecidableEq

/-- Session.IsExpired: `time.Since(s.LastAccess) > timeout` (strict). -/
def isExpired (now timeout lastAccess : Nat) : Bool :=
  now - lastAccess > timeout

/-- Session.UpdateAccess: `s.LastAccess = time.Now()`. -/
def updateAccess (now : Nat) (s : RegSession) : RegSession :=
  { s with lastAccess := now }

inductive GetResult where
  | notFound
  | expired
  | found (s : RegSession)
deriving Repr, DecidableEq

/-- SessionService.GetSession: lookup, expiry test, access refresh.
Returns the result together with the updated registry map. -/
def getSession (sessions : String → Option RegSession) (timeout now : Nat)
    (sessionID : String) : GetResult × (String → Option RegSession) :=
  match sessions sessionID with
  | none => (.notFound, sessions)
  | some s =>
    if isExpired now timeout s.lastAccess then (.expired, sessions)
    else
      let s' := updateAccess now s
      (.found s', fun k => if k = sessionID then some s' else sessions k)

/-! ### Session registry: deletion model (SessionService.DeleteSession)

Session.Close (models.go lines 136-155) sets IsActive false, closes the
SFTP client if non-nil and nils it, then closes the SSH client if non-nil
and nils it.  DeleteSession (part_005 lines 131-148) looks the id up under
the write lock, returns ErrSessionNotFound if absent, otherwise calls
Close and removes the record.  We count how many handle-close operations
each call performs. -/

structure ConnSession where
  id : String
  sftpClientOpen : Bool
  sshClientOpen : Bool
  isActive : Bool
deriving Repr, DecidableEq

/-- Session.Close: returns the closed record and the number of handle
closes performed (one per non-nil client handle). -/
def sessionClose (s : ConnSession) : ConnSession × Nat :=
  let n1 := if s.sftpClientOpen then 1 else 0
  let n2 := if s.sshClientOpen then 1 else 0
  ({ s with isActive := false, sftpClientOpen := false, sshClientOpen := false }, n1 + n2)

inductive DeleteResult where
  | ok
  | notFound
deriving Repr, DecidableEq

/-- SessionService.DeleteSession: returns the result, the updated registry
and the number of handle closes performed by this call. -/
def deleteSession (sessions : String → Option ConnSession) (sessionID : String) :
    DeleteResult × (String → Option ConnSession) × Nat :=
  match sessions sessionID with
  | none => (.notFound, sessions, 0)
  | some s =>
    let n := (sessionClose s).2
    (.ok, fun k => if k = sessionID then none else sessions k, n)

/-! ### Path helpers (Go path.Clean, filepath.Base, filepath.Ext, path.Join)

The repository runs these on slash-separated remote paths, so
filepath.Clean/Base coincide with path.Clean/Base.  They are implemented
here over character lists so that all computations are structural. -/

/-- Split a string on the slash separator (strings.Split with sep slash). -/
def splitSlashAux (cur : List Char) : List Char → List String
  | [] => [String.mk cur.reverse]
  | c :: rest =>
    if c = '/' then String.mk cur.reverse :: splitSlashAux [] rest
    else splitSlashAux (c :: cur) rest

def splitSlash (s : String) : List String :=
  splitSlashAux [] s.data

/-- Element-stack processing of path.Clean: drop empty and dot elements,
pop on dotdot (which stays for relative paths and disappears at a root). -/
def cleanStack (rooted : Bool) : List String → List String → List String
  | acc, [] => acc.reverse
  | acc, e :: rest =>
    if e = ("") then cleanStack rooted acc rest
    else if e = (".") then cleanStack rooted acc rest
    else if e = ("..") then
      match acc with
      | [] => if rooted then cleanStack rooted [] rest else cleanStack rooted [".."] rest
      | top :: tl =>
        if top = ("..") then cleanStack rooted (".." :: top :: tl) rest
        else cleanStack rooted tl rest
    else cleanStack rooted (e :: acc) rest

/-- Rootedness test of path.Clean (the path begins with a slash). -/
def beginsWithSlash (s : String) : Bool :=
  match s.data with
  | [] => false
  | c :: _ => c = '/'

/-- Go path.Clean (lexical shortest equivalent path). -/
def clean (p : String) : String :=
  let rooted := beginsWithSlash p
  let parts := cleanStack rooted [] (splitSlash p)
  let joined := String.intercalate ("/") parts
  if rooted then
    if joined = ("") then "/" else String.append ("/") joined
  else
    if joined = ("") then "." else joined

/-- Go filepath.Base: last non-empty path element; "." for the empty
path, "/" when the path consists entirely of slashes. -/
def baseName (p : String) : String :=
  if p = ("") then "."
  else
    let parts := (splitSlash p).filter (fun e => e ≠ (""))
    (parts.getLast?).getD ("/")

/-- Helper for extName: scan the reversed character list for the last dot
that occurs after the last slash. -/
def extOfRev (acc : List Char) : List Char → String
  | [] => ""
  | c :: rest =>
    if c = '/' then ""
    else if c = '.' then String.mk ('.' :: acc)
    else extOfRev (c :: acc) rest

/-- Go filepath.Ext: the suffix beginning at the final dot in the final
slash-separated element; empty if there is no dot. -/
def extName (p : String) : String :=
  extOfRev [] p.data.reverse

/-- Go path.Join of two elements: join the non-empty ones with a slash,
then Clean; empty when both are empty. -/
def pathJoin (a b : String) : String :=
  if a = ("") && b = ("") then ""
  else if a = ("") then clean b
  else if b = ("") then clean a
  else clean (String.append a (String.append ("/") b))

/-- ASCII lowercase of a string (strings.ToLower on the ASCII inputs used
by the repository). -/
def toLowerStr (s : String) : String :=
  String.mk (s.data.map Char.toLower)

/-! ### Language lookup (pkg/utils GetLanguageFromExtension) -/

/-- Static extension-to-language table of GetLanguageFromExtension
(part_005 lines 250-324), in source order. -/
def languageMap : List (String × String) :=
  [(".js", "javascript"), (".jsx", "jsx"), (".ts", "typescript"), (".tsx", "tsx"),
   (".py", "python"), (".go", "go"), (".java", "java"), (".c", "c"),
   (".cpp", "cpp"), (".cc", "cpp"), (".cxx", "cpp"), (".h", "c"),
   (".hpp", "cpp"), (".cs", "csharp"), (".php", "php"), (".rb", "ruby"),
   (".rs", "rust"), (".swift", "swift"), (".kt", "kotlin"), (".scala", "scala"),
   (".sh", "bash"), (".bash", "bash"), (".zsh", "bash"), (".fish", "bash"),
   (".ps1", "powershell"), (".sql", "sql"), (".html", "html"), (".htm", "html"),
   (".xml", "xml"), (".css", "css"), (".scss", "scss"), (".sass", "sass"),
   (".less", "less"), (".json", "json"), (".yaml", "yaml"), (".yml", "yaml"),
   (".toml", "toml"), (".ini", "ini"), (".conf", "ini"), (".cfg", "ini"),
   (".md", "markdown"), (".markdown", "markdown"), (".tex", "latex"),
   (".r", "r"), (".R", "r"), (".m", "matlab"), (".pl", "perl"),
   (".lua", "lua"), (".vim", "vim"), (".dockerfile", "dockerfile"),
   (".docker", "dockerfile"), (".makefile", "makefile"), (".mk", "makefile"),
   (".cmake", "cmake"), (".gradle", "gradle"), (".groovy", "groovy"),
   (".clj", "clojure"), (".elm", "elm"), (".ex", "elixir"), (".exs", "elixir"),
   (".erl", "erlang"), (".hrl", "erlang"), (".fs", "fsharp"), (".fsx", "fsharp"),
   (".ml", "ocaml"), (".mli", "ocaml"), (".hs", "haskell"), (".lhs", "haskell"),
   (".dart", "dart"), (".v", "verilog"), (".sv", "systemverilog"),
   (".vhd", "vhdl"), (".vhdl", "vhdl")]

/-- GetLanguageFromExtension: lowercase the extension, look it up in the
static table, default to text. -/
def getLanguageFromExtension (ext : String) : String :=
  match languageMap.lookup (toLowerStr ext) with
  | some lang => lang
  | none => "text"

/-! ### Remote filesystem model for the Archive Builder

A remote node is a regular file (with an `openOk` flag for whether
SFTPClient.Open succeeds, and `copy` holding the streamed content when
io.Copy succeeds, none when the copy fails) or a directory (with a
`readOk` flag for whether SFTPClient.ReadDir succeeds, and its children).
The mutual inductive keeps the child list structural. -/

mutual
inductive FSNode where
  | file (openOk : Bool) (copy : Option String)
  | dir (readOk : Bool) (children : FSEntries)
inductive FSEntries where
  | nil
  | cons (name : String) (node : FSNode) (rest : FSEntries)
end

/-- Output items of the ZIP writer: completed entries written during the
path loop, and the trailer written by zipWriter.Close. -/
inductive ZipItem where
  | entry (name : String) (content : String)
  | trailer
deriving Repr, DecidableEq

/-- FileService.addFileToZip (part_003 lines 378-399): open the remote
file (skip on failure), create the entry (writing its header), stream the
content.  When io.Copy fails the header has already been written, so the
entry is present with no streamed content. -/
def addFileToZip (openOk : Bool) (copy : Option String) (zipPath : String) : List ZipItem :=
  if openOk then
    match copy with
    | some c => [ZipItem.entry zipPath c]
    | none => [ZipItem.entry zipPath ""]
  else []

mutual
/-- Dispatch of FileService.DownloadMultiple on a statted node
(part_003 lines 357-371): directories go to addDirectoryToZip, regular
files to addFileToZip. -/
def addNodeToZip : FSNode → String → List ZipItem
  | .file openOk copy, zipPath => addFileToZip openOk copy zipPath
  | .dir readOk children, zipPath =>
    if readOk then
      (if zipPath ≠ ("") then [ZipItem.entry (String.append zipPath ("/")) ""] else [])
        ++ addEntriesToZip children zipPath
    else []
/-- Child loop of FileService.addDirectoryToZip (part_003 lines 418-437):
each child is archived under `zipPath/childName`; a failing child is
skipped and its siblings are still processed. -/
def addEntriesToZip : FSEntries → String → List ZipItem
  | .nil, _ => []
  | .cons name node rest, zipPath =>
    addNodeToZip node (String.append zipPath (String.append ("/") name))
      ++ addEntriesToZip rest zipPath
end

/-- Stat of a requested path: lookup in the association list that models
the remote filesystem roots (none models a stat failure). -/
def statPath (fs : List (String × FSNode)) (p : String) : Option FSNode :=
  fs.lookup p

/-- Body of one iteration of the DownloadMultiple path loop (part_003
lines 346-372): clean the path, stat it (skipping the path on failure),
then archive it under its base name. -/
def processPath (fs : List (String × FSNode)) (filePath : String) : List ZipItem :=
  let cleanPath := clean filePath
  match statPath fs cleanPath with
  | none => []
  | some node => addNodeToZip node (baseName cleanPath)

/-- The DownloadMultiple path loop over all requested paths. -/
def processLoop (fs : List (String × FSNode)) : List String → List ZipItem
  | [] => []
  | p :: rest => processPath fs p ++ processLoop fs rest

/-- FileService.DownloadMultiple (part_003 lines 336-375) for a session
that validated: the deferred zipWriter.Close writes the trailer exactly
once, after the whole loop, on every path through the function. -/
def downloadMultiple (fs : List (String × FSNode)) (filePaths : List String) : List ZipItem :=
  processLoop fs filePaths ++ [ZipItem.trailer]

/-- Names of the entries of a ZIP item list (the trailer has no name). -/
def entryNames (items : List ZipItem) : List String :=
  items.filterMap fun item =>
    match item with
    | .entry n _ => some n
    | .trailer => none

/-! ### Preview model (FileService.PreviewFile, part_003 lines 204-240)

The remote target is modelled by the outcomes of the calls PreviewFile
makes on it: Stat (statOk, isDir, size), Open (openOk) and ReadAll
(readOk, content). -/

structure RemoteFile where
  statOk : Bool
  isDir : Bool
  size : Nat
  openOk : Bool
  readOk : Bool
  content : String
deriving Repr, DecidableEq

inductive PreviewOutcome where
  | statError
  | isDirError
  | tooLarge
  | openError
  | readError
  | ok (content : String) (language : String)
deriving Repr, DecidableEq

/-- FileService.PreviewFile: stat, reject directories, reject files whose
statted size exceeds maxSize before opening, then open and read the whole
file and infer the language from the filename extension.  The Bool
records whether the remote file was ever opened. -/
def previewFile (f : RemoteFile) (filePath : String) (maxSize : Nat) :
    PreviewOutcome × Bool :=
  if f.statOk = false then (.statError, false)
  else if f.isDir then (.isDirError, false)
  else if f.size > maxSize then (.tooLarge, false)
  else if f.openOk = false then (.openError, true)
  else if f.readOk = false then (.readError, true)
  else (.ok f.content (getLanguageFromExtension (extName filePath)), true)

/-! ### Listing model (FileService.ListFiles, part_003 lines 30-81)

The session's SFTP client is modelled by its ReadDir behaviour; the
session's HomeDir is passed in.  Mode and ModTime are not inspected by any
claim and are omitted from the entry snapshot. -/

structure DirEntryInfo where
  name : String
  size : Nat
  isDir : Bool
deriving Repr, DecidableEq

structure FileInfoM where
  name : String
  size : Nat
  isDir : Bool
  path : String
deriving Repr, DecidableEq

/-- Leading-segment test on character lists (helper for strings.Contains). -/
def charsBeginWith : List Char → List Char → Bool
  | _, [] => true
  | [], _ :: _ => false
  | c :: cs, d :: ds => c = d && charsBeginWith cs ds

/-- strings.Contains on character lists. -/
def charsContain (sub : List Char) : List Char → Bool
  | [] => sub.isEmpty
  | c :: cs => charsBeginWith (c :: cs) sub || charsContain sub cs

/-- pkg/utils IsImageFile. -/
def isImageFile (ext : String) : Bool :=
  [".jpg", ".jpeg", ".png", ".gif", ".bmp", ".svg", ".webp", ".ico", ".tiff", ".tif"].contains
    (toLowerStr ext)

/-- pkg/utils IsDocumentFile. -/
def isDocumentFile (ext : String) : Bool :=
  [".pdf", ".doc", ".docx", ".xls", ".xlsx", ".ppt", ".pptx", ".txt", ".rtf", ".odt", ".ods", ".odp"].contains
    (toLowerStr ext)

/-- pkg/utils IsArchiveFile. -/
def isArchiveFile (ext : String) : Bool :=
  [".zip", ".tar", ".gz", ".bz2", ".xz", ".7z", ".rar", ".tar.gz", ".tar.bz2", ".tar.xz"].contains
    (toLowerStr ext)

/-- pkg/utils IsCodeFile. -/
def isCodeFile (ext : String) : Bool :=
  [".js", ".jsx", ".ts", ".tsx", ".py", ".go", ".java", ".c", ".cpp", ".cc", ".cxx", ".h", ".hpp",
   ".cs", ".php", ".rb", ".rs", ".swift", ".kt", ".scala", ".sh", ".bash", ".zsh", ".fish",
   ".ps1", ".sql", ".html", ".htm", ".xml", ".css", ".scss", ".sass", ".less", ".json",
   ".yaml", ".yml", ".toml", ".ini", ".conf", ".cfg", ".md", ".markdown", ".tex", ".r",
   ".R", ".m", ".pl", ".lua", ".vim", ".dockerfile", ".docker", ".makefile", ".mk",
   ".cmake", ".gradle", ".groovy", ".clj", ".elm", ".ex", ".exs", ".erl", ".hrl",
   ".fs", ".fsx", ".ml", ".mli", ".hs", ".lhs", ".dart", ".v", ".sv", ".vhd", ".vhdl"].contains
    (toLowerStr ext)

/-- FileService.matchesFilter (part_003 lines 311-333). -/
def matchesFilter (filename filter : String) : Bool :=
  let fn := toLowerStr filename
  let fl := toLowerStr filter
  if fl = ("images") then isImageFile (extName fn)
  else if fl = ("documents") then isDocumentFile (extName fn)
  else if fl = ("archives") then isArchiveFile (extName fn)
  else if fl = ("code") then isCodeFile (extName fn)
  else charsContain fl.data fn.data

/-- Directory actually passed to SFTPClient.ReadDir by ListFiles
(part_003 lines 36-43): an empty request path defaults to the session's
HomeDir, then the path is cleaned. -/
def listFilesTarget (homeDir dirPath : String) : String :=
  clean (if dirPath = ("") then homeDir else dirPath)

/-- Ordering used by the sort.Slice call of ListFiles (part_003 lines
73-78): directories first, then case-insensitively by name. -/
def fileBefore (a b : FileInfoM) : Bool :=
  if a.isDir != b.isDir then a.isDir
  else toLowerStr a.name < toLowerStr b.name

/-- FileService.ListFiles for a validated session: resolve the directory,
list it (none models a ReadDir failure), drop hidden entries unless
requested, apply the filter, build the display snapshots, and sort. -/
def listFiles (readDir : String → Option (List DirEntryInfo)) (homeDir dirPath : String)
    (showHidden : Bool) (filter : String) : Option (List FileInfoM) :=
  let target := listFilesTarget homeDir dirPath
  match readDir target with
  | none => none
  | some infos =>
    let files := infos.filterMap fun info =>
      if !showHidden && info.name.startsWith (".") then none
      else if filter ≠ ("") && !matchesFilter info.name filter then none
      else some { name := info.name, size := info.size, isDir := info.isDir,
                  path := pathJoin target info.name }
    some (files.mergeSort (fun a b => !fileBefore b a))

/-! ### Home directory resolution at session creation

SessionService.CreateSession (part_005 lines 76-80) calls
SFTPClient.Getwd and falls back to the root on error; it never stats any
conventional home-directory path.  The environment records the Getwd
outcome together with whether the conventional locations for the user
exist, so that dependence (or not) on the latter can be stated. -/

structure RemoteEnv where
  getwdResult : Except Unit String
  homeOfUserExists : Bool
  usersOfUserExists : Bool
deriving Repr

/-- Home directory computed by SessionService.CreateSession: the reported
working directory when Getwd succeeds, otherwise the root.  The probe
flags of the environment are not consulted. -/
def createSessionHomeDir (env : RemoteEnv) : String :=
  match env.getwdResult with
  | .ok wd => wd
  | .error _ => "/"

/-- Home directory as the claim describes it (probing order modelled from
the spec sentence, with the conventional locations taken from the
repository's legacy connect handler, part_005 lines 2006-2017): reported
working directory if available, else the conventional home-directory
locations, else the root. -/
def claimHomeDir (env : RemoteEnv) (username : String) : String :=
  match env.getwdResult with
  | .ok wd => wd
  | .error _ =>
    if env.homeOfUserExists then String.append ("/home/") username
    else if env.usersOfUserExists then String.append ("/Users/") username
    else "/"

/-! ### Sink-failure event model of the Archive Builder

To settle the claim about behaviour after an output-sink write failure,
the same DownloadMultiple / addFileToZip / addDirectoryToZip control flow
is re-traced with an explicit sink: the sink accepts `budget` writes and
fails every write after that (a disconnected client has budget 0).  The
trace records every remote operation (stat, open, readdir) and every sink
write with its outcome, in program order. -/

inductive AEvent where
  | statOp (p : String)
  | openOp (p : String)
  | readDirOp (p : String)
  | headerWrite (name : String) (ok : Bool)
  | copyWrite (name : String) (ok : Bool)
  | trailerWrite (ok : Bool)
deriving Repr, DecidableEq

/-- One write against the sink: succeeds while budget remains. -/
def sinkWrite (budget : Nat) : Bool × Nat :=
  if budget = 0 then (false, 0) else (true, budget - 1)

/-- addFileToZip under the sink model: open the remote file (returning on
failure), write the entry header (returning on failure), then copy the
content — the copy succeeds only if both the remote read succeeds and the
sink accepts the write. -/
def addFileToZipEv (openOk : Bool) (copy : Option String) (filePath zipPath : String)
    (budget : Nat) : List AEvent × Nat :=
  if openOk then
    let (ok1, b1) := sinkWrite budget
    if ok1 then
      let (ok2, b2) := sinkWrite b1
      ([AEvent.openOp filePath, AEvent.headerWrite zipPath ok1,
        AEvent.copyWrite zipPath (ok2 && copy.isSome)], b2)
    else ([AEvent.openOp filePath, AEvent.headerWrite zipPath ok1], b1)
  else ([AEvent.openOp filePath], budget)

mutual
/-- Node dispatch of DownloadMultiple under the sink model. -/
def addNodeToZipEv : FSNode → String → String → Nat → List AEvent × Nat
  | .file openOk copy, remotePath, zipPath, budget =>
    addFileToZipEv openOk copy remotePath zipPath budget
  | .dir readOk children, remotePath, zipPath, budget =>
    if readOk then
      if zipPath ≠ ("") then
        let (ok1, b1) := sinkWrite budget
        if ok1 then
          let (ev2, b2) := addEntriesToZipEv children remotePath zipPath b1
          ([AEvent.readDirOp remotePath,
            AEvent.headerWrite (String.append zipPath ("/")) ok1] ++ ev2, b2)
        else ([AEvent.readDirOp remotePath,
               AEvent.headerWrite (String.append zipPath ("/")) ok1], b1)
      else
        let (ev2, b2) := addEntriesToZipEv children remotePath zipPath budget
        (AEvent.readDirOp remotePath :: ev2, b2)
    else ([AEvent.readDirOp remotePath], budget)
/-- Child loop of addDirectoryToZip under the sink model: a failing child
is skipped, the loop continues. -/
def addEntriesToZipEv : FSEntries → String → String → Nat → List AEvent × Nat
  | .nil, _, _, budget => ([], budget)
  | .cons name node rest, dirPath, zipPath, budget =>
    let (ev1, b1) := addNodeToZipEv node (pathJoin dirPath name)
      (String.append zipPath (String.append ("/") name)) budget
    let (ev2, b2) := addEntriesToZipEv rest dirPath zipPath b1
    (ev1 ++ ev2, b2)
end

/-- One iteration of the DownloadMultiple path loop under the sink model. -/
def processPathEv (fs : List (String × FSNode)) (filePath : String) (budget : Nat) :
    List AEvent × Nat :=
  let cleanPath := clean filePath
  match statPath fs cleanPath with
  | none => ([AEvent.statOp cleanPath], budget)
  | some node =>
    let (ev, b) := addNodeToZipEv node cleanPath (baseName cleanPath) budget
    (AEvent.statOp cleanPath :: ev, b)

/-- The DownloadMultiple path loop under the sink model. -/
def processLoopEv (fs : List (String × FSNode)) : List String → Nat → List AEvent × Nat
  | [], budget => ([], budget)
  | p :: rest, budget =>
    let (ev1, b1) := processPathEv fs p budget
    let (ev2, b2) := processLoopEv fs rest b1
    (ev1 ++ ev2, b2)

/-- DownloadMultiple under the sink model, ending with the deferred
zipWriter.Close write of the trailer. -/
def downloadMultipleEv (fs : List (String × FSNode)) (filePaths : List String)
    (budget : Nat) : List AEvent :=
  let (ev, b) := processLoopEv fs filePaths budget
  ev ++ [AEvent.trailerWrite (sinkWrite b).1]

/-- Remote-walk operations of the trace. -/
def isRemoteOp : AEvent → Bool
  | .statOp _ => true
  | .openOp _ => true
  | .readDirOp _ => true
  | _ => false

/-- Failed sink writes of the trace. -/
def isFailedWrite : AEvent → Bool
  | .headerWrite _ ok => !ok
  | .copyWrite _ ok => !ok
  | .trailerWrite ok => !ok
  | _ => false

/-- Holds when no remote operation occurs after the first failed sink
write of the trace. -/
def noRemoteAfterFailure : List AEvent → Bool
  | [] => true
  | e :: rest =>
    if isFailedWrite e then rest.all (fun x => !isRemoteOp x)
    else noRemoteAfterFailure rest

/-! ### Concrete fixtures used by the example claims -/

/-- Directory fixture dirB: a readable c.txt and an unreadable d.txt. -/
def dirBNode : FSNode :=
  FSNode.dir true
    (FSEntries.cons "c.txt" (FSNode.file true (some "contentC"))
      (FSEntries.cons "d.txt" (FSNode.file false none) FSEntries.nil))

/-- Remote tree of the archive example: a readable fileA.txt, and the
directory dirB. -/
def exampleFS : List (String × FSNode) :=
  [("fileA.txt", FSNode.file true (some "contentA")),
   ("dirB", dirBNode)]

/-- Remote roots of the sink-failure example: two readable files. -/
def twoFilesFS : List (String × FSNode) :=
  [("a.txt", FSNode.file true (some "A")),
   ("b.txt", FSNode.file true (some "B"))]

/-- Registry fixture for the expiry example: one session, last accessed
at instant 0. -/
def exSessions : String → Option RegSession :=
  fun k => if k = ("a") then some { id := "a", lastAccess := 0 } else none

/-- Registry fixture for the deletion example: one session with both
client handles open. -/
def exConnSessions : String → Option ConnSession :=
  fun k =>
    if k = ("s1") then
      some { id := "s1", sftpClientOpen := true, sshClientOpen := true, isActive := true }
    else none

/-- Preview fixture: a readable two-byte file. -/
def exPreviewFile : RemoteFile :=
  { statOk := true, isDir := false, size := 2, openOk := true, readOk := true,
    content := "hi" }

/-- Environment fixture: Getwd fails, /home/alice exists. -/
def envGetwdFailsHomeExists : RemoteEnv :=
  { getwdResult := Except.error (), homeOfUserExists := true, usersOfUserExists := false }

/-- Environment fixture: Getwd fails, only /Users/alice exists. -/
def envGetwdFailsUsersExists : RemoteEnv :=
  { getwdResult := Except.error (), homeOfUserExists := false, usersOfUserExists := true }

/-! ## Theorems -/

/-- Auxiliary: a sequential (check immediately followed by insert)
sequence of create calls preserves the capacity bound. -/
theorem seqCapacityAux (maxSessions : Nat) :
    ∀ (calls : List Nat) (st : CreateState), st.passed = [] →
      st.count ≤ maxSessions →
      (runCreates maxSessions (seqSchedule calls) st).count ≤ maxSessions := by
  intro calls
  induction calls with
  | nil => intro st _ hc; simpa [runCreates, seqSchedule] using hc
  | cons c calls ih =>
    intro st hp hc
    have hseq : seqSchedule (c :: calls) =
        CreateEvent.check c :: CreateEvent.insert c :: seqSchedule calls := by
      simp [seqSchedule]
    rw [hseq]
    by_cases hfull : st.count ≥ maxSessions
    · have h1 : createStep maxSessions st (CreateEvent.check c) = st := by
        simp [createStep, hfull]
      have h2 : createStep maxSessions st (CreateEvent.insert c) = st := by
        simp [createStep, hp]
      simpa [runCreates, h1, h2] using ih st hp hc
    · have h1 : createStep maxSessions st (CreateEvent.check c) =
          { st with passed := [c] } := by
        simp [createStep, hfull, hp]
      have h2 : createStep maxSessions { st with passed := [c] } (CreateEvent.insert c) =
          { count := st.count + 1, passed := [] } := by
        simp [createStep]
      have hc' : st.count + 1 ≤ maxSessions := by omega
      simpa [runCreates, h1, h2] using ih { count := st.count + 1, passed := [] } rfl hc'

/-- C1 counterexample: the claimed invariant — for every sequence of
create calls, including interleaved ones, the registry never holds more
than maxSessions records — is false: with maxSessions = 1 and two calls
that both pass the optimistic read-lock check before either inserts, the
registry ends up holding 2 records, because CreateSession does not
re-check the count under the write lock. -/
theorem createSession_capacity_interleaved_refuted :
    ¬ ∀ (maxSessions : Nat) (events : List CreateEvent),
        (runCreates maxSessions events { count := 0, passed := [] }).count ≤ maxSessions := by
  intro h
  have h2 := h 1 [CreateEvent.check 0, CreateEvent.check 1, CreateEvent.insert 0,
    CreateEvent.insert 1]
  have h3 : (runCreates 1 [CreateEvent.check 0, CreateEvent.check 1, CreateEvent.insert 0,
      CreateEvent.insert 1] { count := 0, passed := [] }).count = 2 := by decide
  omega

/-- C1 (amended): a create call finding the registry at or above
maxSessions fails at the optimistic check and changes nothing, and
sequential (non-interleaved) create calls never push the count above
maxSessions; but the count is not re-checked under the write lock, so
interleaved calls can exceed the limit (see the counterexample). -/
theorem createSession_capacity_sequential
    (maxSessions : Nat) (calls : List Nat) (st : CreateState)
    (hp : st.passed = []) (hc : st.count ≤ maxSessions) :
    (runCreates maxSessions (seqSchedule calls) st).count ≤ maxSessions ∧
      (∀ c, maxSessions ≤ st.count →
        createStep maxSessions st (CreateEvent.check c) = st) := by
  refine ⟨seqCapacityAux maxSessions calls st hp hc, ?_⟩
  intro c hfull
  simp [createStep, hfull]

/-- C1 witness: the sequential-capacity theorem applied to two concrete
create calls against an empty registry with maxSessions = 1. -/
theorem createSession_capacity_sequential_witness :
    ({ count := 0, passed := [] } : CreateState).passed = [] ∧
    ({ count := 0, passed := [] } : CreateState).count ≤ 1 ∧
    ((runCreates 1 (seqSchedule [7, 8]) { count := 0, passed := [] }).count ≤ 1 ∧
      (∀ c, 1 ≤ ({ count := 0, passed := [] } : CreateState).count →
        createStep 1 { count := 0, passed := [] } (CreateEvent.check c) =
          { count := 0, passed := [] })) :=
  ⟨rfl, by decide, createSession_capacity_sequential 1 [7, 8] { count := 0, passed := [] }
    rfl (by decide)⟩

/-- C2 counterexample: the claim that an idle time greater than or equal
to the timeout yields Expired is false at the boundary: with timeout 10,
lastAccess 0 and now 10 the idle time equals the timeout, yet GetSession
returns the session (IsExpired uses a strict comparison). -/
theorem getSession_timeout_boundary_refuted :
    ¬ ∀ (sessions : String → Option RegSession) (timeout now : Nat) (sessionID : String)
        (s : RegSession), sessions sessionID = some s →
          timeout ≤ now - s.lastAccess →
          (getSession sessions timeout now sessionID).1 = GetResult.expired := by
  intro h
  have h2 := h exSessions 10 10 ("a") { id := "a", lastAccess := 0 } rfl (by decide)
  have h3 : (getSession exSessions 10 10 ("a")).1 =
      GetResult.found { id := "a", lastAccess := 10 } := by decide
  rw [h3] at h2
  exact absurd h2 (by decide)

/-- C2 (amended): for a stored session id, an idle time at most the
timeout yields the session with lastAccess refreshed to now (and the
registry updated accordingly); an idle time strictly greater than the
timeout yields Expired and leaves the registry unchanged. -/
theorem getSession_expiry_behavior
    (sessions : String → Option RegSession) (timeout now : Nat) (sessionID : String)
    (s : RegSession) (hs : sessions sessionID = some s) :
    (now - s.lastAccess ≤ timeout →
      getSession sessions timeout now sessionID =
        (GetResult.found (updateAccess now s),
          fun k => if k = sessionID then some (updateAccess now s) else sessions k)) ∧
    (timeout < now - s.lastAccess →
      getSession sessions timeout now sessionID = (GetResult.expired, sessions)) := by
  unfold getSession
  rw [hs]
  constructor
  · intro hle
    have hb : isExpired now timeout s.lastAccess = false := by
      simp [isExpired]; omega
    simp [hb]
  · intro hgt
    have hb : isExpired now timeout s.lastAccess = true := by
      simp [isExpired]; omega
    simp [hb]

/-- C2 witness: the expiry-behaviour theorem applied to the concrete
one-session registry at timeout 10 and now 5. -/
theorem getSession_expiry_behavior_witness :
    exSessions ("a") = some { id := "a", lastAccess := 0 } ∧
    ((5 - ({ id := "a", lastAccess := 0 } : RegSession).lastAccess ≤ 10 →
      getSession exSessions 10 5 ("a") =
        (GetResult.found (updateAccess 5 { id := "a", lastAccess := 0 }),
          fun k => if k = ("a") then some (updateAccess 5 { id := "a", lastAccess := 0 })
            else exSessions k)) ∧
    (10 < 5 - ({ id := "a", lastAccess := 0 } : RegSession).lastAccess →
      getSession exSessions 10 5 ("a") = (GetResult.expired, exSessions))) :=
  ⟨rfl, getSession_expiry_behavior exSessions 10 5 ("a") { id := "a", lastAccess := 0 } rfl⟩

/-- C3: DeleteSession is idempotent: on a stored id with both client
handles open, the first call returns ok, performs exactly one close per
handle (the connection is closed exactly once), and removes the record;
the second call on the same id returns NotFound and performs no close. -/
theorem deleteSession_idempotent
    (sessions : String → Option ConnSession) (sessionID : String) (s : ConnSession)
    (hs : sessions sessionID = some s)
    (hsftp : s.sftpClientOpen = true) (hssh : s.sshClientOpen = true) :
    (deleteSession sessions sessionID).1 = DeleteResult.ok ∧
    (deleteSession sessions sessionID).2.2 = 2 ∧
    (deleteSession sessions sessionID).2.1 sessionID = none ∧
    deleteSession ((deleteSession sessions sessionID).2.1) sessionID =
      (DeleteResult.notFound, (deleteSession sessions sessionID).2.1, 0) := by
  unfold deleteSession
  rw [hs]
  refine ⟨rfl, by simp [sessionClose, hsftp, hssh], by simp, ?_⟩
  simp

/-- C3 witness: the idempotency theorem applied to the concrete
one-session registry. -/
theorem deleteSession_idempotent_witness :
    exConnSessions ("s1") =
      some { id := "s1", sftpClientOpen := true, sshClientOpen := true, isActive := true } ∧
    ((deleteSession exConnSessions ("s1")).1 = DeleteResult.ok ∧
    (deleteSession exConnSessions ("s1")).2.2 = 2 ∧
    (deleteSession exConnSessions ("s1")).2.1 ("s1") = none ∧
    deleteSession ((deleteSession exConnSessions ("s1")).2.1) ("s1") =
      (DeleteResult.notFound, (deleteSession exConnSessions ("s1")).2.1, 0)) :=
  ⟨rfl, deleteSession_idempotent exConnSessions ("s1")
    { id := "s1", sftpClientOpen := true, sshClientOpen := true, isActive := true }
    rfl rfl rfl⟩

mutual
/-- Auxiliary: the entry loop never emits the trailer item (only
zipWriter.Close does). -/
theorem trailer_not_mem_addNode :
    ∀ (node : FSNode) (z : String), ZipItem.trailer ∉ addNodeToZip node z
  | .file openOk copy, z => by
    cases openOk <;> cases copy <;> simp [addNodeToZip, addFileToZip]
  | .dir readOk children, z => by
    have ih := trailer_not_mem_addEntries children z
    cases readOk <;> by_cases hz : z ≠ ("") <;> simp_all [addNodeToZip]
/-- Auxiliary: the directory child loop never emits the trailer item. -/
theorem trailer_not_mem_addEntries :
    ∀ (es : FSEntries) (z : String), ZipItem.trailer ∉ addEntriesToZip es z
  | .nil, z => by simp [addEntriesToZip]
  | .cons name node rest, z => by
    have ih1 := trailer_not_mem_addNode node (String.append z (String.append ("/") name))
    have ih2 := trailer_not_mem_addEntries rest z
    simp_all [addEntriesToZip]
end

/-- Auxiliary: the DownloadMultiple path loop never emits the trailer. -/
theorem trailer_not_mem_processLoop (fs : List (String × FSNode)) :
    ∀ (filePaths : List String), ZipItem.trailer ∉ processLoop fs filePaths := by
  intro filePaths
  induction filePaths with
  | nil => simp [processLoop]
  | cons p rest ih =>
    have hp : ZipItem.trailer ∉ processPath fs p := by
      unfold processPath
      cases h : statPath fs (clean p) with
      | none => simp [h]
      | some node => simpa [h] using trailer_not_mem_addNode node (baseName (clean p))
    simp_all [processLoop]

/-- C4: DownloadMultiple always finalizes the ZIP exactly once — the
trailer occurs exactly once in the output and is its last item, after
every requested path has been processed — and an empty path list yields
the structurally valid zero-entry ZIP consisting of the trailer alone. -/
theorem downloadMultiple_finalizes_once
    (fs : List (String × FSNode)) (filePaths : List String) :
    (downloadMultiple fs filePaths).count ZipItem.trailer = 1 ∧
    (downloadMultiple fs filePaths).getLast? = some ZipItem.trailer ∧
    downloadMultiple fs ([] : List String) = [ZipItem.trailer] := by
  refine ⟨?_, ?_, rfl⟩
  · have h0 : (processLoop fs filePaths).count ZipItem.trailer = 0 :=
      List.count_eq_zero.mpr (trailer_not_mem_processLoop fs filePaths)
    simp [downloadMultiple, List.count_append, h0]
  · simp [downloadMultiple]

/-- C5: failures are local to the failing path or entry — the path loop
processes each requested path independently of the others, the directory
child loop processes each sibling independently, and on the concrete
example tree (readable fileA.txt; dirB containing readable c.txt and
unreadable d.txt) the archive contains exactly the entries fileA.txt,
dirB/ and dirB/c.txt, with no entry for dirB/d.txt and the stream still
finalized. -/
theorem downloadMultiple_partial_failure :
    (∀ (fs : List (String × FSNode)) (p : String) (rest : List String),
        processLoop fs (p :: rest) = processPath fs p ++ processLoop fs rest) ∧
    (∀ (name : String) (node : FSNode) (rest : FSEntries) (zipPath : String),
        addEntriesToZip (FSEntries.cons name node rest) zipPath =
          addNodeToZip node (String.append zipPath (String.append ("/") name))
            ++ addEntriesToZip rest zipPath) ∧
    downloadMultiple exampleFS ["fileA.txt", "dirB"] =
      [ZipItem.entry "fileA.txt" "contentA", ZipItem.entry "dirB/" "",
       ZipItem.entry "dirB/c.txt" "contentC", ZipItem.trailer] ∧
    ("dirB/d.txt") ∉ entryNames (downloadMultiple exampleFS ["fileA.txt", "dirB"]) := by
  refine ⟨fun _ _ _ => rfl, fun _ _ _ _ => rfl, by decide, by decide⟩

/-- C6: on a statted regular file, PreviewFile rejects with TooLarge
before opening the remote file whenever the statted size exceeds
maxSize; otherwise (when the open and read succeed) it returns the
entire content together with the language inferred by the static
extension lookup, which maps .py to python and defaults unknown
extensions to text; when the stat is accurate the returned content is at
most maxSize bytes. -/
theorem previewFile_size_cap_and_language
    (f : RemoteFile) (filePath : String) (maxSize : Nat)
    (hstat : f.statOk = true) (hdir : f.isDir = false) :
    (maxSize < f.size → previewFile f filePath maxSize = (PreviewOutcome.tooLarge, false)) ∧
    (f.size ≤ maxSize → f.openOk = true → f.readOk = true →
      previewFile f filePath maxSize =
        (PreviewOutcome.ok f.content (getLanguageFromExtension (extName filePath)), true) ∧
      (f.content.length = f.size → f.content.length ≤ maxSize)) ∧
    getLanguageFromExtension (".py") = "python" ∧
    getLanguageFromExtension (".unknown") = "text" := by
  refine ⟨?_, ?_, by decide, by decide⟩
  · intro hbig
    have hb : f.size > maxSize := hbig
    simp [previewFile, hstat, hdir, hb]
  · intro hle hopen hread
    have hb : ¬ f.size > maxSize := by omega
    exact ⟨by simp [previewFile, hstat, hdir, hb, hopen, hread], by omega⟩

/-- C6 witness: the preview theorem applied to a concrete 2-byte readable
file previewed with maxSize 100. -/
theorem previewFile_size_cap_and_language_witness :
    exPreviewFile.statOk = true ∧
    exPreviewFile.isDir = false ∧
    ((100 < exPreviewFile.size →
      previewFile exPreviewFile ("a.py") 100 = (PreviewOutcome.tooLarge, false)) ∧
     (exPreviewFile.size ≤ 100 → exPreviewFile.openOk = true → exPreviewFile.readOk = true →
      previewFile exPreviewFile ("a.py") 100 =
        (PreviewOutcome.ok exPreviewFile.content
          (getLanguageFromExtension (extName ("a.py"))), true) ∧
      (exPreviewFile.content.length = exPreviewFile.size →
        exPreviewFile.content.length ≤ 100)) ∧
     getLanguageFromExtension (".py") = "python" ∧
     getLanguageFromExtension (".unknown") = "text") :=
  ⟨rfl, rfl, previewFile_size_cap_and_language exPreviewFile ("a.py") 100 rfl rfl⟩

/-- C7 counterexample: the claim that CreateSession probes conventional
home-directory paths when the reported working directory is unavailable
is false: in an environment where Getwd fails and /home/alice exists, the
claimed resolution yields /home/alice while CreateSession yields the
root. -/
theorem createSession_homeDir_probe_refuted :
    createSessionHomeDir envGetwdFailsHomeExists = "/" ∧
    claimHomeDir envGetwdFailsHomeExists ("alice") = "/home/alice" ∧
    ("/" : String) ≠ "/home/alice" :=
  ⟨rfl, rfl, by decide⟩

/-- C7 (amended): at session creation the home directory is the
connection's reported working directory when Getwd succeeds, and the root
otherwise; no conventional home-directory path is probed — the result
depends only on the Getwd outcome, not on which conventional locations
exist. -/
theorem createSession_homeDir_amended
    (env env' : RemoteEnv) (h : env.getwdResult = env'.getwdResult) :
    createSessionHomeDir env = createSessionHomeDir env' ∧
    (∀ wd, env.getwdResult = Except.ok wd → createSessionHomeDir env = wd) ∧
    (∀ e, env.getwdResult = Except.error e → createSessionHomeDir env = "/") := by
  refine ⟨by simp [createSessionHomeDir, h], ?_, ?_⟩
  · intro wd hwd
    simp [createSessionHomeDir, hwd]
  · intro e he
    simp [createSessionHomeDir, he]

/-- C7 witness: the amended theorem applied to two environments sharing a
failed Getwd outcome but disagreeing on which conventional locations
exist. -/
theorem createSession_homeDir_amended_witness :
    envGetwdFailsHomeExists.getwdResult = envGetwdFailsUsersExists.getwdResult ∧
    (createSessionHomeDir envGetwdFailsHomeExists =
      createSessionHomeDir envGetwdFailsUsersExists ∧
     (∀ wd, envGetwdFailsHomeExists.getwdResult = Except.ok wd →
        createSessionHomeDir envGetwdFailsHomeExists = wd) ∧
     (∀ e, envGetwdFailsHomeExists.getwdResult = Except.error e →
        createSessionHomeDir envGetwdFailsHomeExists = "/")) :=
  ⟨rfl, createSession_homeDir_amended envGetwdFailsHomeExists envGetwdFailsUsersExists rfl⟩

/-- Associativity of string concatenation, stated on String.append. -/
theorem strAppend_assoc (a b c : String) :
    String.append (String.append a b) c = String.append a (String.append b c) :=
  String.append_assoc a b c

mutual
/-- Auxiliary: every entry name produced for a node archived under zip
path z is z itself, the directory header z followed by a slash, or z
followed by a slash and a relative path. -/
theorem rooted_addNode :
    ∀ (node : FSNode) (z e : String), e ∈ entryNames (addNodeToZip node z) →
      e = z ∨ e = String.append z ("/") ∨
        ∃ rel, e = String.append z (String.append ("/") rel)
  | .file openOk copy, z, e => by
    cases openOk <;> cases copy <;> simp_all [addNodeToZip, addFileToZip, entryNames]
  | .dir readOk children, z, e => by
    intro he
    have ih := rooted_addEntries children z e
    cases readOk with
    | false => simp [addNodeToZip, entryNames] at he
    | true =>
      by_cases hz : z = ("")
      · subst hz
        have he' : e ∈ entryNames (addEntriesToZip children ("")) := by
          simpa [addNodeToZip, entryNames] using he
        exact Or.inr (Or.inr (ih he'))
      · simp [addNodeToZip, hz, entryNames, List.filterMap_append,
          -List.mem_filterMap] at he
        rcases he with he | he
        · exact Or.inr (Or.inl he)
        · exact Or.inr (Or.inr (ih he))
/-- Auxiliary: every entry name produced by the directory child loop
under zip path z extends z by a slash and a relative path. -/
theorem rooted_addEntries :
    ∀ (es : FSEntries) (z e : String), e ∈ entryNames (addEntriesToZip es z) →
      ∃ rel, e = String.append z (String.append ("/") rel)
  | .nil, z, e => by simp [addEntriesToZip, entryNames]
  | .cons name node rest, z, e => by
    intro he
    have h1 := rooted_addNode node (String.append z (String.append ("/") name)) e
    have h2 := rooted_addEntries rest z e
    simp only [addEntriesToZip, entryNames, List.filterMap_append, List.mem_append] at he
    rcases he with he | he
    · rcases h1 he with h | h | ⟨r, hr⟩
      · exact ⟨name, h⟩
      · exact ⟨String.append name ("/"), by rw [h]; simp [strAppend_assoc]⟩
      · exact ⟨String.append name (String.append ("/") r), by rw [hr]; simp [strAppend_assoc]⟩
    · exact h2 he
end

/-- C8: ZIP entry names are rooted at the base name of the (cleaned)
requested path, never at its absolute remote path: a requested regular
file yields exactly one top-level entry named by its base name (none when
it cannot be opened), and every entry name produced for a requested path
is the base name itself, the base name as a directory header, or the
base name joined with a slash-relative path beneath it. -/
theorem zip_entry_names_rooted
    (fs : List (String × FSNode)) (p : String) (node : FSNode)
    (hstat : statPath fs (clean p) = some node) :
    (∀ openOk copy, node = FSNode.file openOk copy →
       entryNames (processPath fs p) =
         if openOk then [baseName (clean p)] else []) ∧
    (∀ e, e ∈ entryNames (processPath fs p) →
       e = baseName (clean p) ∨ e = String.append (baseName (clean p)) ("/") ∨
       ∃ rel, e = String.append (baseName (clean p)) (String.append ("/") rel)) := by
  constructor
  · intro openOk copy hnode
    simp only [processPath, hstat]
    subst hnode
    cases openOk <;> cases copy <;> simp [addNodeToZip, addFileToZip, entryNames]
  · intro e he
    simp only [processPath, hstat] at he
    exact rooted_addNode node (baseName (clean p)) e he

/-- C8 witness: the rooted-names theorem applied to the concrete example
tree at the requested directory dirB. -/
theorem zip_entry_names_rooted_witness :
    statPath exampleFS (clean ("dirB")) = some dirBNode ∧
    ((∀ openOk copy, dirBNode = FSNode.file openOk copy →
       entryNames (processPath exampleFS ("dirB")) =
         if openOk then [baseName (clean ("dirB"))] else []) ∧
     (∀ e, e ∈ entryNames (processPath exampleFS ("dirB")) →
       e = baseName (clean ("dirB")) ∨
       e = String.append (baseName (clean ("dirB"))) ("/") ∨
       ∃ rel, e = String.append (baseName (clean ("dirB"))) (String.append ("/") rel))) :=
  ⟨rfl, zip_entry_names_rooted exampleFS ("dirB") dirBNode rfl⟩

/-- C9 counterexample: the claim that after a sink write failure the
Archive Builder performs no further remote walk operations is false: with
a sink that fails from the start and two requested readable files, the
builder still stats and opens the second file after the first entry's
header write has failed. -/
theorem archive_sink_failure_walk_refuted :
    ¬ ∀ (fs : List (String × FSNode)) (filePaths : List String) (budget : Nat),
        noRemoteAfterFailure (downloadMultipleEv fs filePaths budget) = true := by
  intro h
  have h2 := h twoFilesFS ["a.txt", "b.txt"] 0
  have h3 : noRemoteAfterFailure (downloadMultipleEv twoFilesFS ["a.txt", "b.txt"] 0)
      = false := by decide
  rw [h2] at h3
  exact absurd h3 (by decide)

/-- C9 (amended): a sink write failure is handled as a per-entry failure,
not as an abort of the walk: a failed header write abandons that entry
(its content copy is never attempted), the path loop continues with the
remaining requested paths, and in the concrete two-file trace with a dead
sink, remote operations do continue after the first failed write. -/
theorem archive_sink_failure_entry_abandoned :
    (∀ (copy : Option String) (filePath zipPath : String),
        addFileToZipEv true copy filePath zipPath 0 =
          ([AEvent.openOp filePath, AEvent.headerWrite zipPath false], 0)) ∧
    (∀ (fs : List (String × FSNode)) (p : String) (rest : List String) (budget : Nat),
        processLoopEv fs (p :: rest) budget =
          ((processPathEv fs p budget).1 ++
            (processLoopEv fs rest (processPathEv fs p budget).2).1,
           (processLoopEv fs rest (processPathEv fs p budget).2).2)) ∧
    noRemoteAfterFailure (downloadMultipleEv twoFilesFS ["a.txt", "b.txt"] 0) = false := by
  refine ⟨fun _ _ _ => rfl, fun _ _ _ _ => rfl, by decide⟩

/-- C10: with an empty directory-path argument, ListFiles performs the
remote listing on the session's home directory: the ReadDir target of the
empty path is the cleaned HomeDir, and the whole call behaves exactly as
if the home directory had been requested. -/
theorem listFiles_empty_path_uses_homeDir :
    (∀ (homeDir : String), listFilesTarget homeDir ("") = clean homeDir) ∧
    (∀ (readDir : String → Option (List DirEntryInfo)) (homeDir : String)
        (showHidden : Bool) (filter : String),
        listFiles readDir homeDir ("") showHidden filter =
          listFiles readDir homeDir homeDir showHidden filter) := by
  constructor
  · intro homeDir
    simp [listFilesTarget]
  · intro readDir homeDir showHidden filter
    simp [listFiles, listFilesTarget]

end Sftp
